import Mathlib

/-!
Verification of the staged data-processing pipeline in
`src/hust_bearing/data/core.py` (hust_bearing).

The embedding is shallow:

* Python machine floats are idealised as exact arithmetic: rationals
  (`ℚ`) for the generic, executable statistics functions, and reals
  (`ℝ`) inside the pipeline, where `torch`'s square root becomes
  `Real.sqrt`.
* Exceptions become `Except PyErr`; a raising stage returns the error
  together with the state at raise time (capturing the mutations made to
  `self` before the exception propagated).
* `torch` tensors are flattened into lists of their pixel values; a
  dataset item `(image, label)` becomes `(pixels, target)`; a
  `DataLoader` becomes a list of batches, a batch being a list of items.
* The spectrogram computation (`torch.stft`, magnitude, dB, resize) is
  an uninterpreted pure function supplied by the adapter model: no claim
  depends on the values it produces.
-/

namespace HustBearing

/-- Python exception kinds surfacing in `core.py`: explicit
`ValueError`s, `ZeroDivisionError` from `/` on a zero count,
`KeyError` from `dict` indexing, `RuntimeError` from a reduction over an
empty tensor, `AssertionError` from `ConcatDataset` on an empty dataset
list, and adapter I/O failures. -/
inductive PyErr where
  | valueError (msg : String)
  | zeroDivisionError
  | ioError
  | keyError
  | runtimeError
  | assertionError
  deriving DecidableEq, Repr

/-! ## Python slice semantics and `SegmentSTFTs` segmentation -/

/-- Normalisation of one bound of a Python slice `l[a:b]` on a list of
length `n`: a negative index counts from the end and is clamped below at
`0`; a non-negative index is clamped above at `n`. -/
def pyNormIndex (n : ℕ) (i : ℤ) : ℕ :=
  if i < 0 then ((n : ℤ) + i).toNat else min n i.toNat

/-- Python slice `l[a:b]` (step 1): never raises, silently clamps. -/
def pySlice {α : Type} (l : List α) (a b : ℤ) : List α :=
  (l.take (pyNormIndex l.length b)).drop (pyNormIndex l.length a)

/-- `SegmentSTFTs.__init__` (core.py line 47):
`self.num_segments = len(signal) // self.seg_length`. -/
def numSegments {α : Type} (signal : List α) (seg_length : ℕ) : ℕ :=
  signal.length / seg_length

/-- The segment extracted by `SegmentSTFTs.__getitem__` (core.py
line 54): `signal[idx * self.seg_length : (idx + 1) * self.seg_length]`,
with Python slice semantics and no bounds check. -/
def getSegment {α : Type} (signal : List α) (seg_length : ℕ) (idx : ℤ) : List α :=
  pySlice signal (idx * (seg_length : ℤ)) ((idx + 1) * (seg_length : ℤ))

/-- The segments of one file, in index order: the lazily-indexed
`SegmentSTFTs` dataset viewed extensionally. -/
def segmentsList {α : Type} (signal : List α) (seg_length : ℕ) : List (List α) :=
  (List.range (numSegments signal seg_length)).map
    (fun i => getSegment signal seg_length (i : ℤ))

/-- `ConcatDataset` over per-file segment datasets, viewed
extensionally: the order-preserving concatenation. -/
def concatSegments {α : Type} (signals : List (List α)) (seg_length : ℕ) : List (List α) :=
  (signals.map (fun s => segmentsList s seg_length)).flatten

lemma pyNormIndex_ofNat (n k : ℕ) : pyNormIndex n (k : ℤ) = min n k := by
  simp [pyNormIndex]

lemma getSegment_ofNat (signal : List ℚ) (S i : ℕ) :
    getSegment signal S (i : ℤ) =
      (signal.take (min signal.length ((i + 1) * S))).drop (min signal.length (i * S)) := by
  have h1 : ((i : ℤ) * (S : ℤ)) = ((i * S : ℕ) : ℤ) := by push_cast; ring
  have h2 : (((i : ℤ) + 1) * (S : ℤ)) = (((i + 1) * S : ℕ) : ℤ) := by push_cast; ring
  simp only [getSegment, pySlice, h1, h2, pyNormIndex_ofNat]

lemma getSegment_in_range (signal : List ℚ) (S i : ℕ) (hS : 0 < S)
    (hi : i < numSegments signal S) :
    getSegment signal S (i : ℤ) = (signal.drop (i * S)).take S := by
  have hi1 : i + 1 ≤ signal.length / S := hi
  have hub : (i + 1) * S ≤ signal.length := (Nat.le_div_iff_mul_le hS).mp hi1
  have hlb : i * S ≤ signal.length := by
    have : i * S ≤ (i + 1) * S := Nat.mul_le_mul_right _ (Nat.le_succ i)
    omega
  rw [getSegment_ofNat, min_eq_right hub, min_eq_right hlb, List.drop_take]
  have : (i + 1) * S - i * S = S := by
    have h : (i + 1) * S = i * S + S := by ring
    omega
  rw [this]

/-! ## Streaming statistics (`compute_mean_std`, `compute_min_max`) -/

/-- `compute_mean_std` (core.py lines 85-101) up to the final square
root: pass 1 accumulates `pixel_sum` and `num_pixels` over the batches
and divides (`ZeroDivisionError` when the loader holds zero pixels);
pass 2 re-iterates the same (replayable) loader accumulating the sum of
squared deviations and divides again.  Returned is `(mean, variance)`;
the code's `pixel_std` is the square root of the second component and is
taken in `compute_mean_std` below.  The code raises its
`ZeroDivisionError` at the first or second division depending on whether
the loader has zero batches or only empty ones; either way it raises
before returning, which is what the single up-front test models. -/
def compute_mean_var {α : Type} [LinearOrderedField α]
    (batches : List (List α)) : Except PyErr (α × α) :=
  let pixel_sum : α := (batches.map List.sum).sum
  let num_pixels : ℕ := (batches.map List.length).sum
  if num_pixels = 0 then .error .zeroDivisionError
  else
    let pixel_mean := pixel_sum / (num_pixels : α)
    let pixel_ssd : α :=
      (batches.map (fun b => (b.map (fun x => (x - pixel_mean) ^ 2)).sum)).sum
    .ok (pixel_mean, pixel_ssd / (num_pixels : α))

/-- `compute_mean_std` (core.py lines 85-101): mean and standard
deviation `(pixel_ssd / num_pixels) ** 0.5` over all pixels yielded by
the loader. -/
noncomputable def compute_mean_std (batches : List (List ℝ)) : Except PyErr (ℝ × ℝ) :=
  (compute_mean_var batches).map (fun mv => (mv.1, Real.sqrt mv.2))

/-- `image_batch.min().item()`: `torch` raises a `RuntimeError` when the
reduction runs over an empty tensor. -/
def batchMin {α : Type} [LinearOrder α] : List α → Except PyErr α
  | [] => .error .runtimeError
  | x :: xs => .ok (xs.foldl min x)

/-- `image_batch.max().item()`; raises on an empty tensor like
`batchMin`. -/
def batchMax {α : Type} [LinearOrder α] : List α → Except PyErr α
  | [] => .error .runtimeError
  | x :: xs => .ok (xs.foldl max x)

/-- The loop of `compute_min_max` (core.py lines 108-110): running
minimum and maximum accumulators, updated with each batch. -/
def minMaxGo {α : Type} [LinearOrder α] (pixel_min : WithTop α) (pixel_max : WithBot α) :
    List (List α) → Except PyErr (WithTop α × WithBot α)
  | [] => .ok (pixel_min, pixel_max)
  | b :: bs =>
    match batchMin b, batchMax b with
    | .ok m, .ok M => minMaxGo (min pixel_min (m : WithTop α)) (max pixel_max (M : WithBot α)) bs
    | .error e, _ => .error e
    | .ok _, .error e => .error e

/-- `compute_min_max` (core.py lines 104-112): single pass, accumulators
initialised to `float("inf")` (modelled `⊤`) and `float("-inf")`
(modelled `⊥`). -/
def compute_min_max {α : Type} [LinearOrder α] (batches : List (List α)) :
    Except PyErr (WithTop α × WithBot α) :=
  minMaxGo ⊤ ⊥ batches

/-- The reference single-pass mean of the spec: `sum / count` over the
whole collection. -/
def directMean {α : Type} [LinearOrderedField α] (xs : List α) : α :=
  xs.sum / (xs.length : α)

/-- The reference variance of the spec: `sum((x - mean)^2) / count`;
the spec's standard deviation is its square root. -/
def directVar {α : Type} [LinearOrderedField α] (xs : List α) : α :=
  ((xs.map (fun x => (x - directMean xs) ^ 2)).sum) / (xs.length : α)

lemma compute_mean_var_flatten {α : Type} [LinearOrderedField α]
    (bs : List (List α)) (h : bs.flatten ≠ []) :
    compute_mean_var bs = .ok (directMean bs.flatten, directVar bs.flatten) := by
  have hlen : (bs.map List.length).sum = bs.flatten.length :=
    (List.length_flatten bs).symm
  have hsum : (bs.map List.sum).sum = bs.flatten.sum := List.sum_flatten.symm
  have hne0 : bs.flatten.length ≠ 0 := fun hh => h (List.length_eq_zero.mp hh)
  have hcond : ¬ (bs.map List.length).sum = 0 := by rw [hlen]; exact hne0
  have hmean : (bs.map List.sum).sum / (((bs.map List.length).sum : ℕ) : α)
      = directMean bs.flatten := by
    rw [hsum, hlen, directMean]
  have hssd : ∀ m : α,
      (bs.map (fun b => (b.map (fun x => (x - m) ^ 2)).sum)).sum
        = (bs.flatten.map (fun x => (x - m) ^ 2)).sum := by
    intro m
    rw [List.map_flatten, List.sum_flatten, List.map_map]
    rfl
  simp only [compute_mean_var]
  rw [if_neg hcond, hmean, hssd, hlen, directVar]

lemma directMean_perm {α : Type} [LinearOrderedField α] {l l' : List α}
    (h : l.Perm l') : directMean l = directMean l' := by
  rw [directMean, directMean, h.sum_eq, h.length_eq]

lemma directVar_perm {α : Type} [LinearOrderedField α] {l l' : List α}
    (h : l.Perm l') : directVar l = directVar l' := by
  rw [directVar, directVar, directMean_perm h, h.length_eq,
    (h.map (fun x => (x - directMean l') ^ 2)).sum_eq]

/-- C4: `compute_mean_std` over any batching of a non-empty collection
agrees with the direct computation over the whole collection
(`mean = sum / count`, `std = sqrt(sum((x - mean)^2) / count)`),
regardless of batch sizes, batch count, or batch order. -/
theorem compute_mean_std_batching_invariant (bs : List (List ℝ)) (xs : List ℝ)
    (hperm : bs.flatten.Perm xs) (hne : xs ≠ []) :
    compute_mean_std bs = .ok (directMean xs, Real.sqrt (directVar xs)) := by
  have hfl : bs.flatten ≠ [] := by
    intro hcontr
    rw [hcontr] at hperm
    exact hne hperm.symm.eq_nil
  rw [compute_mean_std, compute_mean_var_flatten bs hfl,
    directMean_perm hperm, directVar_perm hperm]
  rfl

/-- C4 witness: the concrete scenario with batches `[1,2,3]` and
`[4,5]`: mean `3`, standard deviation `sqrt 2`. -/
theorem compute_mean_std_batching_invariant_witness :
    compute_mean_std [[1, 2, 3], [4, 5]] = .ok (3, Real.sqrt 2) := by
  have hfl : ([[1, 2, 3], [4, 5]] : List (List ℝ)).flatten = [1, 2, 3, 4, 5] := rfl
  have h := compute_mean_std_batching_invariant [[1, 2, 3], [4, 5]] [1, 2, 3, 4, 5]
    (by rw [hfl]) (by simp)
  have hm : directMean ([1, 2, 3, 4, 5] : List ℝ) = 3 := by
    norm_num [directMean]
  have hv : directVar ([1, 2, 3, 4, 5] : List ℝ) = 2 := by
    norm_num [directVar, directMean]
  rw [h, hm, hv]

lemma sum_map_filter_nonempty {α β : Type} [AddCommMonoid β] (f : List α → β)
    (hf : f [] = 0) : ∀ bs : List (List α),
    ((bs.filter (fun b => !b.isEmpty)).map f).sum = (bs.map f).sum
  | [] => rfl
  | [] :: bs => by
      simp [List.filter_cons, hf, sum_map_filter_nonempty f hf bs]
  | (x :: xs) :: bs => by
      simp [List.filter_cons, sum_map_filter_nonempty f hf bs]

lemma compute_mean_var_filter {α : Type} [LinearOrderedField α] (bs : List (List α)) :
    compute_mean_var (bs.filter (fun b => !b.isEmpty)) = compute_mean_var bs := by
  have h1 := sum_map_filter_nonempty (β := α) List.sum rfl bs
  have h2 := sum_map_filter_nonempty (β := ℕ) List.length rfl bs
  have h3 : ∀ m : α,
      ((bs.filter (fun b => !b.isEmpty)).map
          (fun b => (b.map (fun x => (x - m) ^ 2)).sum)).sum
        = (bs.map (fun b => (b.map (fun x => (x - m) ^ 2)).sum)).sum :=
    fun m => sum_map_filter_nonempty (fun b => (b.map (fun x => (x - m) ^ 2)).sum) rfl bs
  simp only [compute_mean_var, h1, h2, h3]

/-- C8: `compute_mean_std` tolerates individual empty batches (dropping
them changes nothing), raises `ZeroDivisionError` when the loader yields
zero pixels overall, and returns normally on any loader with at least
one pixel. -/
theorem compute_mean_std_empty_handling (bs : List (List ℝ)) :
    compute_mean_std (bs.filter (fun b => !b.isEmpty)) = compute_mean_std bs
    ∧ (bs.flatten = [] → compute_mean_std bs = .error .zeroDivisionError)
    ∧ (bs.flatten ≠ [] → ∃ m s, compute_mean_std bs = .ok (m, s)) := by
  refine ⟨?_, ?_, ?_⟩
  · rw [compute_mean_std, compute_mean_std, compute_mean_var_filter]
  · intro h
    have h0 : (bs.map List.length).sum = 0 := by
      rw [← List.length_flatten, h]
      rfl
    simp [compute_mean_std, compute_mean_var, h0, Except.map]
  · intro h
    rw [compute_mean_std, compute_mean_var_flatten bs h]
    exact ⟨_, _, rfl⟩

/-- C8 witness: a loader with one empty and one singleton batch returns
normally. -/
theorem compute_mean_std_empty_handling_witness :
    ∃ m s, compute_mean_std [[], [2]] = .ok (m, s) :=
  (compute_mean_std_empty_handling [[], [2]]).2.2 (by simp)

lemma coe_foldl_min {α : Type} [LinearOrder α] :
    ∀ (xs : List α) (x : α), ((xs.foldl min x : α) : WithTop α) = min (x : WithTop α) xs.minimum
  | [], x => by
      simp [List.minimum_nil, min_eq_left (le_top : (x : WithTop α) ≤ ⊤)]
  | y :: ys, x => by
      rw [List.foldl_cons, coe_foldl_min ys (min x y), List.minimum_cons,
        WithTop.coe_min, min_assoc]

lemma coe_foldl_max {α : Type} [LinearOrder α] :
    ∀ (xs : List α) (x : α), ((xs.foldl max x : α) : WithBot α) = max (x : WithBot α) xs.maximum
  | [], x => by
      simp [List.maximum_nil, max_eq_left (bot_le : ⊥ ≤ (x : WithBot α))]
  | y :: ys, x => by
      rw [List.foldl_cons, coe_foldl_max ys (max x y), List.maximum_cons,
        WithBot.coe_max, max_assoc]

lemma minimum_append {α : Type} [LinearOrder α] :
    ∀ l₁ l₂ : List α, (l₁ ++ l₂).minimum = min l₁.minimum l₂.minimum
  | [], l₂ => by
      simp [List.minimum_nil, min_eq_right (le_top : l₂.minimum ≤ ⊤)]
  | x :: l₁, l₂ => by
      rw [List.cons_append, List.minimum_cons, minimum_append l₁ l₂,
        List.minimum_cons, min_assoc]

lemma maximum_append {α : Type} [LinearOrder α] :
    ∀ l₁ l₂ : List α, (l₁ ++ l₂).maximum = max l₁.maximum l₂.maximum
  | [], l₂ => by
      simp [List.maximum_nil, max_eq_right (bot_le : ⊥ ≤ l₂.maximum)]
  | x :: l₁, l₂ => by
      rw [List.cons_append, List.maximum_cons, maximum_append l₁ l₂,
        List.maximum_cons, max_assoc]

lemma perm_minimum_eq {α : Type} [LinearOrder α] {l l' : List α}
    (h : l.Perm l') : l.minimum = l'.minimum := by
  induction h with
  | nil => rfl
  | cons x _ ih => rw [List.minimum_cons, List.minimum_cons, ih]
  | swap x y l =>
      rw [List.minimum_cons, List.minimum_cons, List.minimum_cons,
        List.minimum_cons, min_left_comm]
  | trans _ _ ih1 ih2 => rw [ih1, ih2]

lemma perm_maximum_eq {α : Type} [LinearOrder α] {l l' : List α}
    (h : l.Perm l') : l.maximum = l'.maximum := by
  induction h with
  | nil => rfl
  | cons x _ ih => rw [List.maximum_cons, List.maximum_cons, ih]
  | swap x y l =>
      rw [List.maximum_cons, List.maximum_cons, List.maximum_cons,
        List.maximum_cons, max_left_comm]
  | trans _ _ ih1 ih2 => rw [ih1, ih2]

lemma minMaxGo_spec {α : Type} [LinearOrder α] :
    ∀ (bs : List (List α)) (lo : WithTop α) (hi : WithBot α),
      (∀ b ∈ bs, b ≠ []) →
      minMaxGo lo hi bs = .ok (min lo bs.flatten.minimum, max hi bs.flatten.maximum)
  | [], lo, hi, _ => by
      simp [minMaxGo, List.minimum_nil, List.maximum_nil,
        min_eq_left (le_top : lo ≤ ⊤), max_eq_left (bot_le : ⊥ ≤ hi)]
  | [] :: bs, lo, hi, h => absurd rfl (h [] (List.mem_cons_self _ _))
  | (x :: xs) :: bs, lo, hi, h => by
      rw [minMaxGo]
      simp only [batchMin, batchMax]
      rw [minMaxGo_spec bs _ _ (fun b hb => h b (List.mem_cons_of_mem _ hb)),
        List.flatten_cons, minimum_append, maximum_append,
        coe_foldl_min xs x, coe_foldl_max xs x,
        ← List.minimum_cons, ← List.maximum_cons, min_assoc, max_assoc]

/-- C9: `compute_min_max` over any batching of a non-empty collection
into non-empty batches returns the minimum and maximum of the whole
collection, starting from the accumulators `+∞`/`-∞`; the result is
invariant under batch reordering and under re-batching. -/
theorem compute_min_max_batching_invariant {α : Type} [LinearOrder α]
    (bs : List (List α)) (xs : List α)
    (hb : ∀ b ∈ bs, b ≠ []) (hperm : bs.flatten.Perm xs) (_hne : xs ≠ []) :
    compute_min_max bs = .ok (xs.minimum, xs.maximum) := by
  rw [compute_min_max, minMaxGo_spec bs ⊤ ⊥ hb, perm_minimum_eq hperm,
    perm_maximum_eq hperm, min_eq_right (le_top : xs.minimum ≤ ⊤),
    max_eq_right (bot_le : ⊥ ≤ xs.maximum)]

/-- C9 witness: two batches, out of order and of different sizes, give
the collection minimum `1` and maximum `5`. -/
theorem compute_min_max_batching_invariant_witness :
    compute_min_max ([[4, 5], [1, 2, 3]] : List (List ℚ)) = .ok (1, 5) := by
  have h := compute_min_max_batching_invariant ([[4, 5], [1, 2, 3]] : List (List ℚ))
    [1, 2, 3, 4, 5] (by decide) (by decide) (by decide)
  have hmin : ([1, 2, 3, 4, 5] : List ℚ).minimum = 1 := by decide
  have hmax : ([1, 2, 3, 4, 5] : List ℚ).maximum = 5 := by decide
  rw [h, hmin, hmax]

/-- C3: for segment length `S > 0`, the dataset length is exactly
`floor(L / S)`; every in-range index accesses exactly the slice with
bounds `[i*S, (i+1)*S)` (of full length `S`); and a signal shorter than
`S` yields zero segments, contributing nothing to the concatenated
dataset, with no error raised (the model is total on such inputs). -/
theorem segmentation_spec (signal : List ℚ) (S : ℕ) (hS : 0 < S) :
    numSegments signal S = signal.length / S
    ∧ (∀ i : ℕ, i < numSegments signal S →
        getSegment signal S (i : ℤ) = (signal.drop (i * S)).take S
        ∧ (getSegment signal S (i : ℤ)).length = S)
    ∧ (signal.length < S →
        numSegments signal S = 0
        ∧ ∀ signals : List (List ℚ),
            concatSegments (signal :: signals) S = concatSegments signals S) := by
  refine ⟨rfl, ?_, ?_⟩
  · intro i hi
    refine ⟨getSegment_in_range signal S i hS hi, ?_⟩
    rw [getSegment_in_range signal S i hS hi, List.length_take, List.length_drop]
    have hub : (i + 1) * S ≤ signal.length := (Nat.le_div_iff_mul_le hS).mp hi
    have hh : (i + 1) * S = i * S + S := by ring
    rw [hh] at hub
    generalize i * S = p at hub
    omega
  · intro hLS
    have h0 : numSegments signal S = 0 := Nat.div_eq_of_lt hLS
    refine ⟨h0, fun signals => ?_⟩
    simp [concatSegments, segmentsList, h0]

/-- C3 witness: a 5-sample signal with segment length 2 has 2 segments,
and segment 1 is exactly the slice `[2*1, 2*2) = [3, 4]`. -/
theorem segmentation_spec_witness :
    numSegments ([1, 2, 3, 4, 5] : List ℚ) 2 = 2
    ∧ getSegment ([1, 2, 3, 4, 5] : List ℚ) 2 ((1 : ℕ) : ℤ) = [3, 4] := by
  have h := segmentation_spec [1, 2, 3, 4, 5] 2 (by decide)
  refine ⟨h.1, ?_⟩
  rw [(h.2.1 1 (by decide)).1]
  decide

/-- C2 counterexample: for the 5-sample signal `[1,2,3,4,5]` with
segment length 2 there are exactly 2 segments, so index 2 is out of
range; yet `__getitem__`'s unchecked Python slice silently yields the
shortened one-element segment `[5]` instead of signalling an
out-of-range error (the access is total in the model, as in the code,
which performs no bounds check). -/
theorem getitem_out_of_range_counterexample :
    numSegments ([1, 2, 3, 4, 5] : List ℚ) 2 = 2
    ∧ getSegment ([1, 2, 3, 4, 5] : List ℚ) 2 (2 : ℤ) = [5] := by decide

/-- C2 (amended): `get(index)` performs no bounds check; for any
non-negative index at or past the segment count, the Python slice
`signal[idx*S : (idx+1)*S]` silently returns a shortened or empty
segment (of length strictly less than `S`), and no out-of-range error is
signalled. -/
theorem getitem_out_of_range_shortened (signal : List ℚ) (S i : ℕ)
    (hS : 0 < S) (hi : numSegments signal S ≤ i) :
    (getSegment signal S (i : ℤ)).length < S := by
  rw [getSegment_ofNat, List.length_drop, List.length_take]
  have h1 : signal.length < (i + 1) * S :=
    (Nat.div_lt_iff_lt_mul hS).mp (Nat.lt_succ_of_le hi)
  have hh : (i + 1) * S = i * S + S := by ring
  rw [hh] at h1 ⊢
  generalize i * S = p at h1 ⊢
  omega

/-- C2 amended witness: index 3 on the same signal yields an empty
segment, length `0 < 2`. -/
theorem getitem_out_of_range_shortened_witness :
    (getSegment ([1, 2, 3, 4, 5] : List ℚ) 2 (3 : ℤ)).length < 2 :=
  getitem_out_of_range_shortened [1, 2, 3, 4, 5] 2 3 (by decide) (by decide)

/-! ## The staged `Pipeline` state machine

`Pipeline` is an abstract base class; the four dataset-specific
operations are collected in `SourceAdapter`.  A dataset is modelled
extensionally as the list of its items, an item `(image, label)` as
`(pixels, target)` with real pixel values; a `DataLoader` as the list of
batches it yields.  The train loader's shuffling only permutes item
order, which the statistics are invariant under (C4/C9), so loaders are
modelled with the deterministic in-order batching.  A stage mutates
`self` field by field; a raising stage therefore returns the error
*paired with the state at raise time*, so that partial mutation is
observable. -/

/-- A dataset item: the image's pixel values and the encoded target. -/
abbrev Item : Type := List ℝ × ℕ

/-- Which partition: the keys of the `subsets` / `data_loaders` dicts. -/
inductive Part where
  | train
  | valid
  | test
  deriving DecidableEq, Repr

/-- A three-key Python dict keyed by `"train"`, `"valid"`, `"test"`;
each key is absent (`none`) until first assigned. -/
structure Tri (β : Type) where
  train : Option β
  valid : Option β
  test : Option β

/-- Dict lookup `d[k]` (total variant returning an `Option`). -/
def Tri.get {β : Type} (t : Tri β) : Part → Option β
  | .train => t.train
  | .valid => t.valid
  | .test => t.test

/-- Dict assignment `d[k] = x`. -/
def Tri.set {β : Type} (t : Tri β) : Part → β → Tri β
  | .train, x => { t with train := some x }
  | .valid, x => { t with valid := some x }
  | .test, x => { t with test := some x }

/-- The empty dict `{}`. -/
def Tri.emptyDict {β : Type} : Tri β := ⟨none, none, none⟩

/-- `not {"train","valid","test"}.symmetric_difference(d.keys())`: the
dict holds all three keys (it can never hold others). -/
def Tri.complete {β : Type} (t : Tri β) : Bool :=
  t.train.isSome && t.valid.isSome && t.test.isSome

lemma Tri.get_set_self {β : Type} (t : Tri β) (p : Part) (x : β) :
    (t.set p x).get p = some x := by
  cases p <;> rfl

/-- The pipeline's mutable state: the fields set in
`Pipeline.__init__` (core.py lines 116-123). -/
structure PState where
  data_dir : Option String
  batch_size : Option ℕ
  num_workers : Option ℕ
  dataset : Option (List Item)
  num_classes : ℕ
  subsets : Tri (List Item)
  data_loaders : Tri (List (List Item))

/-- `Pipeline.__init__`: everything unset, `num_classes = 0`, empty
dicts. -/
def PState.init : PState :=
  { data_dir := none, batch_size := none, num_workers := none,
    dataset := none, num_classes := 0,
    subsets := Tri.emptyDict, data_loaders := Tri.emptyDict }

/-- The four abstract dataset-specific operations of the `Pipeline`
base class, plus the composite spectrogram image map
(`torch.stft` → magnitude → `20*log10` → channel axis → `Resize`),
which is an external-library computation treated as an uninterpreted
pure function of the segment (no claim depends on its values).
`download_data` and `load_signal` may raise (I/O errors surface
as-is). -/
structure SourceAdapter where
  download_data : String → Except PyErr Unit
  list_data_files : String → List String
  read_label : String → String
  load_signal : String → Except PyErr (List ℝ)
  spectrogram : List ℝ → List ℝ

/-- The pixel values of one yielded batch: all pixels of its images. -/
def batchPixels (b : List Item) : List ℝ := (b.map Prod.fst).flatten

/-- A loader, viewed by the statistics functions: its batches'
pixels. -/
def loaderPixelBatches (dl : List (List Item)) : List (List ℝ) :=
  dl.map batchPixels

/-- `DataLoader` batching: consecutive chunks of `b` items (the final
one possibly shorter).  Only called with `b ≥ 1` (torch rejects
`batch_size ≤ 0` at construction). -/
def chunksOf {β : Type} (b : ℕ) : List β → List (List β)
  | [] => []
  | x :: xs => (x :: xs).take b :: chunksOf b (xs.drop (b - 1))
termination_by l => l.length
decreasing_by simp [List.length_drop]; omega

/-- `Pipeline.build_data_loader` (core.py lines 213-221): requires
`batch_size` and `num_workers` to be set, reads `subsets[subset]`
(`KeyError` if absent), and constructs the partition's loader.  torch's
`DataLoader` rejects a non-positive batch size at construction.  The
train loader's `shuffle=True` only permutes order and is modelled by
the in-order batching. -/
def build_data_loader (sub : Part) (s : PState) : Except PyErr PState :=
  match s.batch_size, s.num_workers with
  | some b, some _ =>
    match s.subsets.get sub with
    | none => .error .keyError
    | some ds =>
      if b = 0 then .error (.valueError "batch_size should be a positive integer value")
      else .ok { s with data_loaders := s.data_loaders.set sub (chunksOf b ds) }
  | _, _ => .error (.valueError "")

/-- `Pipeline.truncate` (core.py lines 223-232): compute mean/std over
the partition's *current* loader, clamp every pixel of the partition's
dataset to `[-outlier, outlier]` with `outlier = pixel_std * n_sigma`
via a new `TransformDataset` layer (`torch.clamp` is
`min(max(x, lo), hi)`), then rebuild the partition's loader. -/
noncomputable def truncate (n_sigma : ℤ) (sub : Part) (s : PState) : Except PyErr PState :=
  match s.data_loaders.get sub with
  | none => .error .keyError
  | some dl =>
    match compute_mean_std (loaderPixelBatches dl) with
    | .error e => .error e
    | .ok (_pixel_mean, pixel_std) =>
      let outlier : ℝ := pixel_std * (n_sigma : ℝ)
      match s.subsets.get sub with
      | none => .error .keyError
      | some ds =>
        let ds' := ds.map (fun it =>
          (it.1.map (fun x => min (max x (-outlier)) outlier), it.2))
        build_data_loader sub { s with subsets := s.subsets.set sub ds' }

/-- The `loc`/`scale` parameters of `Pipeline.min_max_scale`:
`loc = (pixel_max + pixel_min) / 2`, `scale = (pixel_max - pixel_min) / 2`.
The infinite case would arise only from an empty loader, where the
Python floats give `nan`/`-inf`; it is defaulted here (floats are
outside the embedding) and no claim exercises it. -/
noncomputable def minMaxParams : WithTop ℝ → WithBot ℝ → ℝ × ℝ
  | some pmin, some pmax => ((pmax + pmin) / 2, (pmax - pmin) / 2)
  | _, _ => (0, 0)

/-- `Pipeline.min_max_scale` (core.py lines 234-242): compute min/max
over the partition's current loader, wrap the partition's dataset in a
`Normalize(loc, scale)` transform (`x ↦ (x - loc) / scale`), rebuild the
loader.  The zero-`scale` case is not guarded; the transform is stored
unevaluated in the code and only applied on later item access (here the
extensional view maps it over the items, with Lean's `x / 0 = 0`
convention standing in for the unevaluated zero divisor). -/
noncomputable def min_max_scale (sub : Part) (s : PState) : Except PyErr PState :=
  match s.data_loaders.get sub with
  | none => .error .keyError
  | some dl =>
    match compute_min_max (loaderPixelBatches dl) with
    | .error e => .error e
    | .ok (pixel_min, pixel_max) =>
      let ls := minMaxParams pixel_min pixel_max
      match s.subsets.get sub with
      | none => .error .keyError
      | some ds =>
        let ds' := ds.map (fun it =>
          (it.1.map (fun x => (x - ls.1) / ls.2), it.2))
        build_data_loader sub { s with subsets := s.subsets.set sub ds' }

/-- `Pipeline.normalize` (core.py lines 244-250): compute mean/std over
the partition's current loader, wrap in `Normalize(mean, std)`
(`x ↦ (x - mean) / std`), rebuild the loader. -/
noncomputable def normalize (sub : Part) (s : PState) : Except PyErr PState :=
  match s.data_loaders.get sub with
  | none => .error .keyError
  | some dl =>
    match compute_mean_std (loaderPixelBatches dl) with
    | .error e => .error e
    | .ok (pixel_mean, pixel_std) =>
      match s.subsets.get sub with
      | none => .error .keyError
      | some ds =>
        let ds' := ds.map (fun it =>
          (it.1.map (fun x => (x - pixel_mean) / pixel_std), it.2))
        build_data_loader sub { s with subsets := s.subsets.set sub ds' }

/-- `SegmentSTFTs.__init__` + lazy item access for one file, viewed
extensionally: load the signal (I/O may raise), segment it, and build
one `(image, target)` item per segment.  A zero `seg_length` reproduces
Python's `ZeroDivisionError` from `len(signal) // 0`. -/
def sstftItems (A : SourceAdapter) (seg_length : ℕ) (file : String) (target : ℕ) :
    Except PyErr (List Item) :=
  match A.load_signal file with
  | .error e => .error e
  | .ok signal =>
    if seg_length = 0 then .error .zeroDivisionError
    else .ok ((List.range (numSegments signal seg_length)).map
      (fun i => (A.spectrogram (getSegment signal seg_length (i : ℤ)), target)))

/-- `LabelEncoder.fit_transform`: classes are the sorted distinct
labels; each label maps to its class index. -/
def encodeTargets (labels : List String) : List ℕ :=
  labels.map (fun l => (labels.dedup.insertionSort (· ≤ ·)).indexOf l)

/-- `Pipeline.p_download` (core.py lines 125-131): ensure the data is
downloaded (the adapter call may raise, in which case `data_dir` is not
assigned), then record the data directory. -/
def p_download (A : SourceAdapter) (dir : String) (s : PState) :
    Except (PyErr × PState) PState :=
  match A.download_data dir with
  | .error e => .error (e, s)
  | .ok _ => .ok { s with data_dir := some dir }

/-- `Pipeline.p_build_dataset` (core.py lines 133-161): precondition
`data_dir` set; enumerate files, read labels, assign
`num_classes = len(np.unique(labels))`, encode targets, then build one
`SegmentSTFTs` per file (each loads its signal — I/O may raise *after*
`num_classes` was already assigned) and concatenate.  torch's
`ConcatDataset` asserts a non-empty dataset list. -/
def p_build_dataset (A : SourceAdapter) (seg_length : ℕ) (s : PState) :
    Except (PyErr × PState) PState :=
  match s.data_dir with
  | none => .error (.valueError "Data isn\x27t downloaded.", s)
  | some dir =>
    let data_files := A.list_data_files dir
    let labels := data_files.map A.read_label
    let s1 := { s with num_classes := labels.dedup.length }
    let targets := encodeTargets labels
    match (data_files.zip targets).mapM (fun ft => sstftItems A seg_length ft.1 ft.2) with
    | .error e => .error (e, s1)
    | .ok dss =>
      if dss.isEmpty then .error (.assertionError, s1)
      else .ok { s1 with dataset := some dss.flatten }

/-- `torch.utils.data.random_split` lengths for three fractions:
floors, with the remainder distributed round-robin to the first
subsets. -/
def splitLengths (fr : ℚ × ℚ × ℚ) (n : ℕ) : ℕ × ℕ × ℕ :=
  let q1 := ⌊fr.1 * n⌋.toNat
  let q2 := ⌊fr.2.1 * n⌋.toNat
  let q3 := ⌊fr.2.2 * n⌋.toNat
  let r := n - (q1 + q2 + q3)
  (q1 + min r 1, q2 + min (r - min r 1) 1, q3 + (r - min r 1 - min (r - min r 1) 1))

/-- `Pipeline.p_split_dataset` (core.py lines 163-171): precondition
`dataset` set; `random_split` validates that the fractions sum to 1 and
splits the dataset into the three partitions (the random permutation of
indices is modelled by the in-order split; no claim depends on which
items land where). -/
def p_split_dataset (fr : ℚ × ℚ × ℚ) (s : PState) : Except (PyErr × PState) PState :=
  match s.dataset with
  | none => .error (.valueError "Dataset isn\x27t built.", s)
  | some ds =>
    if fr.1 + fr.2.1 + fr.2.2 ≠ 1 then
      .error (.valueError "Sum of input fractions does not equal 1.", s)
    else
      let l := splitLengths fr ds.length
      .ok { s with subsets :=
        { train := some (ds.take l.1),
          valid := some ((ds.drop l.1).take l.2.1),
          test := some ((ds.drop (l.1 + l.2.1)).take l.2.2) } }

/-- `Pipeline.p_build_data_loaders` (core.py lines 173-181):
precondition all three partitions present; store `batch_size` and
`num_workers`, then build the three loaders in order. -/
def p_build_data_loaders (batch_size num_workers : ℕ) (s : PState) :
    Except (PyErr × PState) PState :=
  if s.subsets.complete then
    let s1 := { s with batch_size := some batch_size, num_workers := some num_workers }
    match build_data_loader .train s1 with
    | .error e => .error (e, s1)
    | .ok s2 =>
      match build_data_loader .valid s2 with
      | .error e => .error (e, s2)
      | .ok s3 =>
        match build_data_loader .test s3 with
        | .error e => .error (e, s3)
        | .ok s4 => .ok s4
  else .error (.valueError "Dataset isn\x27t built or split.", s)

/-- `Pipeline.p_truncate` (core.py lines 183-191): precondition all
three loaders present; truncate the three partitions in order — a
failure on a later partition leaves the earlier partitions already
mutated. -/
noncomputable def p_truncate (n_sigma : ℤ) (s : PState) : Except (PyErr × PState) PState :=
  if s.data_loaders.complete then
    match truncate n_sigma .train s with
    | .error e => .error (e, s)
    | .ok s1 =>
      match truncate n_sigma .valid s1 with
      | .error e => .error (e, s1)
      | .ok s2 =>
        match truncate n_sigma .test s2 with
        | .error e => .error (e, s2)
        | .ok s3 => .ok s3
  else .error (.valueError "Data loaders aren\x27t built.", s)

/-- `Pipeline.p_min_max_scale` (core.py lines 193-201): precondition all
three loaders present; min-max-scale the three partitions in order. -/
noncomputable def p_min_max_scale (s : PState) : Except (PyErr × PState) PState :=
  if s.data_loaders.complete then
    match min_max_scale .train s with
    | .error e => .error (e, s)
    | .ok s1 =>
      match min_max_scale .valid s1 with
      | .error e => .error (e, s1)
      | .ok s2 =>
        match min_max_scale .test s2 with
        | .error e => .error (e, s2)
        | .ok s3 => .ok s3
  else .error (.valueError "Data loaders aren\x27t built.", s)

/-- `Pipeline.p_normalize` (core.py lines 203-211): precondition all
three loaders present; normalize the three partitions in order. -/
noncomputable def p_normalize (s : PState) : Except (PyErr × PState) PState :=
  if s.data_loaders.complete then
    match normalize .train s with
    | .error e => .error (e, s)
    | .ok s1 =>
      match normalize .valid s1 with
      | .error e => .error (e, s1)
      | .ok s2 =>
        match normalize .test s2 with
        | .error e => .error (e, s2)
        | .ok s3 => .ok s3
  else .error (.valueError "Data loaders aren\x27t built.", s)

/-! ## Stage guard and success lemmas -/

lemma p_build_dataset_pre (A : SourceAdapter) (seg : ℕ) (s : PState)
    (h : s.data_dir = none) :
    p_build_dataset A seg s = .error (.valueError "Data isn\x27t downloaded.", s) := by
  simp [p_build_dataset, h]

lemma p_split_dataset_pre (fr : ℚ × ℚ × ℚ) (s : PState) (h : s.dataset = none) :
    p_split_dataset fr s = .error (.valueError "Dataset isn\x27t built.", s) := by
  simp [p_split_dataset, h]

lemma p_build_data_loaders_pre (bsz nw : ℕ) (s : PState)
    (h : s.subsets.complete = false) :
    p_build_data_loaders bsz nw s
      = .error (.valueError "Dataset isn\x27t built or split.", s) := by
  simp [p_build_data_loaders, h]

lemma p_truncate_pre (n : ℤ) (s : PState) (h : s.data_loaders.complete = false) :
    p_truncate n s = .error (.valueError "Data loaders aren\x27t built.", s) := by
  simp [p_truncate, h]

lemma p_min_max_scale_pre (s : PState) (h : s.data_loaders.complete = false) :
    p_min_max_scale s = .error (.valueError "Data loaders aren\x27t built.", s) := by
  simp [p_min_max_scale, h]

lemma p_normalize_pre (s : PState) (h : s.data_loaders.complete = false) :
    p_normalize s = .error (.valueError "Data loaders aren\x27t built.", s) := by
  simp [p_normalize, h]

lemma build_data_loader_ok (sub : Part) (s : PState)
    (bsz : ℕ) (hbsz : s.batch_size = some bsz) (hbpos : bsz ≠ 0)
    (nw : ℕ) (hnw : s.num_workers = some nw)
    (ds : List Item) (hds : s.subsets.get sub = some ds) :
    build_data_loader sub s
      = .ok { s with data_loaders := s.data_loaders.set sub (chunksOf bsz ds) } := by
  simp [build_data_loader, hbsz, hnw, hds, hbpos]

lemma truncate_ok (n_sigma : ℤ) (sub : Part) (s : PState)
    (dl : List (List Item)) (hdl : s.data_loaders.get sub = some dl)
    (ds : List Item) (hds : s.subsets.get sub = some ds)
    (bsz : ℕ) (hbsz : s.batch_size = some bsz) (hbpos : bsz ≠ 0)
    (nw : ℕ) (hnw : s.num_workers = some nw)
    (m v : ℝ) (hmv : compute_mean_var (loaderPixelBatches dl) = .ok (m, v)) :
    ∃ s', truncate n_sigma sub s = .ok s'
      ∧ s'.subsets.get sub = some (ds.map (fun it =>
          (it.1.map (fun x =>
            min (max x (-(Real.sqrt v * (n_sigma : ℝ)))) (Real.sqrt v * (n_sigma : ℝ))), it.2))) := by
  set ds2 := ds.map (fun it =>
    (it.1.map (fun x =>
      min (max x (-(Real.sqrt v * (n_sigma : ℝ)))) (Real.sqrt v * (n_sigma : ℝ))), it.2)) with hds2
  set s2 : PState := { s with subsets := s.subsets.set sub ds2 } with hs2def
  have hb := build_data_loader_ok sub s2 bsz hbsz hbpos nw hnw ds2 (Tri.get_set_self _ _ _)
  have ht : truncate n_sigma sub s
      = .ok { s2 with data_loaders := s2.data_loaders.set sub (chunksOf bsz ds2) } := by
    simp only [truncate, hdl, compute_mean_std, hmv, Except.map, hds]
    exact hb
  exact ⟨_, ht, Tri.get_set_self _ _ _⟩

lemma min_max_scale_ok (sub : Part) (s : PState)
    (dl : List (List Item)) (hdl : s.data_loaders.get sub = some dl)
    (ds : List Item) (hds : s.subsets.get sub = some ds)
    (bsz : ℕ) (hbsz : s.batch_size = some bsz) (hbpos : bsz ≠ 0)
    (nw : ℕ) (hnw : s.num_workers = some nw)
    (pmin : WithTop ℝ) (pmax : WithBot ℝ)
    (hmm : compute_min_max (loaderPixelBatches dl) = .ok (pmin, pmax)) :
    ∃ s', min_max_scale sub s = .ok s'
      ∧ s'.subsets.get sub = some (ds.map (fun it =>
          (it.1.map (fun x =>
            (x - (minMaxParams pmin pmax).1) / (minMaxParams pmin pmax).2), it.2))) := by
  set ds2 := ds.map (fun it =>
    (it.1.map (fun x =>
      (x - (minMaxParams pmin pmax).1) / (minMaxParams pmin pmax).2), it.2)) with hds2
  set s2 : PState := { s with subsets := s.subsets.set sub ds2 } with hs2def
  have hb := build_data_loader_ok sub s2 bsz hbsz hbpos nw hnw ds2 (Tri.get_set_self _ _ _)
  have ht : min_max_scale sub s
      = .ok { s2 with data_loaders := s2.data_loaders.set sub (chunksOf bsz ds2) } := by
    simp only [min_max_scale, hdl, hmm, hds]
    exact hb
  exact ⟨_, ht, Tri.get_set_self _ _ _⟩

/-! ## Claim theorems about the pipeline -/

/-- C5: a stage invoked while its prerequisite field is unset raises the
designated sequencing `ValueError` immediately, before anything else
happens (the state is returned unchanged): `build_dataset` without a
data directory, `split_dataset` without a dataset,
`build_data_loaders` without the three partitions, and
`truncate`/`min_max_scale`/`normalize` without the three loaders. -/
theorem sequencing_errors (A : SourceAdapter) (seg : ℕ) (fr : ℚ × ℚ × ℚ)
    (bsz nw : ℕ) (n : ℤ) (s : PState) :
    (s.data_dir = none →
      p_build_dataset A seg s = .error (.valueError "Data isn\x27t downloaded.", s))
    ∧ (s.dataset = none →
      p_split_dataset fr s = .error (.valueError "Dataset isn\x27t built.", s))
    ∧ (s.subsets.complete = false →
      p_build_data_loaders bsz nw s
        = .error (.valueError "Dataset isn\x27t built or split.", s))
    ∧ (s.data_loaders.complete = false →
      p_truncate n s = .error (.valueError "Data loaders aren\x27t built.", s))
    ∧ (s.data_loaders.complete = false →
      p_min_max_scale s = .error (.valueError "Data loaders aren\x27t built.", s))
    ∧ (s.data_loaders.complete = false →
      p_normalize s = .error (.valueError "Data loaders aren\x27t built.", s)) :=
  ⟨p_build_dataset_pre A seg s, p_split_dataset_pre fr s,
    p_build_data_loaders_pre bsz nw s, p_truncate_pre n s,
    p_min_max_scale_pre s, p_normalize_pre s⟩

/-- A trivial concrete adapter used to instantiate witnesses. -/
def adapterW : SourceAdapter :=
  { download_data := fun _ => .ok (), list_data_files := fun _ => ["f"],
    read_label := fun _ => "a", load_signal := fun _ => .ok [],
    spectrogram := fun l => l }

/-- C5 witness: on a freshly initialised pipeline every guarded stage
raises its sequencing error with the state unchanged. -/
theorem sequencing_errors_witness :
    p_build_dataset adapterW 4 PState.init
      = .error (.valueError "Data isn\x27t downloaded.", PState.init)
    ∧ p_split_dataset (1/2, 1/4, 1/4) PState.init
      = .error (.valueError "Dataset isn\x27t built.", PState.init)
    ∧ p_build_data_loaders 8 0 PState.init
      = .error (.valueError "Dataset isn\x27t built or split.", PState.init)
    ∧ p_truncate 2 PState.init
      = .error (.valueError "Data loaders aren\x27t built.", PState.init)
    ∧ p_min_max_scale PState.init
      = .error (.valueError "Data loaders aren\x27t built.", PState.init)
    ∧ p_normalize PState.init
      = .error (.valueError "Data loaders aren\x27t built.", PState.init) := by
  have h := sequencing_errors adapterW 4 (1/2, 1/4, 1/4) 8 0 2 PState.init
  exact ⟨h.1 rfl, h.2.1 rfl, h.2.2.1 rfl, h.2.2.2.1 rfl,
    h.2.2.2.2.1 rfl, h.2.2.2.2.2 rfl⟩

/-- C1 (amended): every stage validates its precondition before mutating
any state field, so a precondition (sequencing) failure — and a failed
download — leaves the pipeline state exactly as it was.  Mid-stage
failures, however, may leave earlier mutations in place: `build_dataset`
assigns `num_classes` before constructing the dataset, and
`truncate`/`min_max_scale`/`normalize` rebuild the partitions
sequentially, so a failure on a later partition leaves earlier
partitions already replaced (see the counterexample). -/
theorem stage_precondition_atomicity (A : SourceAdapter) (dir : String) (seg : ℕ)
    (fr : ℚ × ℚ × ℚ) (bsz nw : ℕ) (n : ℤ) (s : PState) :
    (∀ e, A.download_data dir = .error e → p_download A dir s = .error (e, s))
    ∧ (s.data_dir = none → ∃ e, p_build_dataset A seg s = .error (e, s))
    ∧ (s.dataset = none → ∃ e, p_split_dataset fr s = .error (e, s))
    ∧ (s.subsets.complete = false → ∃ e, p_build_data_loaders bsz nw s = .error (e, s))
    ∧ (s.data_loaders.complete = false → ∃ e, p_truncate n s = .error (e, s))
    ∧ (s.data_loaders.complete = false → ∃ e, p_min_max_scale s = .error (e, s))
    ∧ (s.data_loaders.complete = false → ∃ e, p_normalize s = .error (e, s)) :=
  ⟨fun e he => by simp [p_download, he],
    fun h => ⟨_, p_build_dataset_pre A seg s h⟩,
    fun h => ⟨_, p_split_dataset_pre fr s h⟩,
    fun h => ⟨_, p_build_data_loaders_pre bsz nw s h⟩,
    fun h => ⟨_, p_truncate_pre n s h⟩,
    fun h => ⟨_, p_min_max_scale_pre s h⟩,
    fun h => ⟨_, p_normalize_pre s h⟩⟩

/-- An adapter with one data file whose label reads fine but whose
signal load raises an I/O error. -/
def adapterCE : SourceAdapter :=
  { download_data := fun _ => .ok (), list_data_files := fun _ => ["f"],
    read_label := fun _ => "a", load_signal := fun _ => .error .ioError,
    spectrogram := fun l => l }

/-- The pre-stage state: a fresh pipeline after `p_download`. -/
def stateCE : PState := { PState.init with data_dir := some "d" }

/-- C1 counterexample: `p_build_dataset` assigns `num_classes := 1`
(line 153) and only then constructs the per-file datasets, where loading
the signal raises; the stage fails, yet the state it leaves behind
differs from the pre-stage state — a state field was assigned although
the stage did not succeed, refuting the claim that no state field is
assigned unless the whole stage succeeds. -/
theorem stage_atomicity_counterexample :
    p_build_dataset adapterCE 4 stateCE
      = .error (.ioError, { stateCE with num_classes := 1 })
    ∧ ({ stateCE with num_classes := 1 } : PState).num_classes ≠ stateCE.num_classes := by
  exact ⟨rfl, by decide⟩

/-- C1 witness (for the amended theorem): the precondition-failure cases
at the fresh initial state, and the download-failure case. -/
theorem stage_precondition_atomicity_witness :
    (∃ e, p_build_dataset adapterW 4 PState.init = .error (e, PState.init))
    ∧ (∃ e, p_split_dataset (1/2, 1/4, 1/4) PState.init = .error (e, PState.init))
    ∧ (∃ e, p_build_data_loaders 8 0 PState.init = .error (e, PState.init))
    ∧ (∃ e, p_truncate 2 PState.init = .error (e, PState.init))
    ∧ (∃ e, p_min_max_scale PState.init = .error (e, PState.init))
    ∧ (∃ e, p_normalize PState.init = .error (e, PState.init)) := by
  have h := stage_precondition_atomicity adapterW "d" 4 (1/2, 1/4, 1/4) 8 0 2 PState.init
  exact ⟨h.2.1 rfl, h.2.2.1 rfl, h.2.2.2.1 rfl, h.2.2.2.2.1 rfl,
    h.2.2.2.2.2.1 rfl, h.2.2.2.2.2.2 rfl⟩

/-- C6: after `Pipeline.truncate` runs on a partition, every pixel value
of that partition's dataset lies within `[-n_sigma*std, n_sigma*std]`,
where `std` is the standard deviation computed over that partition's
loader *before* the truncation transform was applied (the stage computes
it from the pre-stage loader `dl` and never recomputes it). -/
theorem truncate_bounds (n_sigma : ℤ) (hn : 0 ≤ n_sigma) (sub : Part) (s : PState)
    (dl : List (List Item)) (hdl : s.data_loaders.get sub = some dl)
    (ds : List Item) (hds : s.subsets.get sub = some ds)
    (bsz : ℕ) (hbsz : s.batch_size = some bsz) (hbpos : bsz ≠ 0)
    (nw : ℕ) (hnw : s.num_workers = some nw)
    (m v : ℝ) (hmv : compute_mean_var (loaderPixelBatches dl) = .ok (m, v)) :
    ∃ s', truncate n_sigma sub s = .ok s'
      ∧ ∀ it ∈ (s'.subsets.get sub).getD [], ∀ p ∈ it.1,
          -(Real.sqrt v * (n_sigma : ℝ)) ≤ p ∧ p ≤ Real.sqrt v * (n_sigma : ℝ) := by
  obtain ⟨s', hs', hsub⟩ :=
    truncate_ok n_sigma sub s dl hdl ds hds bsz hbsz hbpos nw hnw m v hmv
  have ho : (0 : ℝ) ≤ Real.sqrt v * (n_sigma : ℝ) :=
    mul_nonneg (Real.sqrt_nonneg v) (by exact_mod_cast hn)
  refine ⟨s', hs', ?_⟩
  rw [hsub]
  intro it hit p hp
  simp only [Option.getD_some] at hit
  obtain ⟨a, _, rfl⟩ := List.mem_map.mp hit
  obtain ⟨x, _, rfl⟩ := List.mem_map.mp hp
  constructor
  · exact le_min (le_max_right _ _) (neg_le_self ho)
  · exact min_le_right _ _

/-- State for the truncate witness: one single-pixel item in the train
partition, batch size 1. -/
def stateW6 : PState :=
  { PState.init with
    batch_size := some 1
    num_workers := some 0
    subsets := { train := some [([0], 0)], valid := none, test := none }
    data_loaders := { train := some [[([0], 0)]], valid := none, test := none } }

/-- C6 witness: truncating the single-pixel train partition (mean 0,
variance 0) succeeds and every resulting pixel obeys the bound. -/
theorem truncate_bounds_witness :
    ∃ s', truncate 2 .train stateW6 = .ok s'
      ∧ ∀ it ∈ (s'.subsets.get .train).getD [], ∀ p ∈ it.1,
          -(Real.sqrt 0 * ((2 : ℤ) : ℝ)) ≤ p ∧ p ≤ Real.sqrt 0 * ((2 : ℤ) : ℝ) :=
  truncate_bounds 2 (by decide) .train stateW6 [[([0], 0)]] rfl [([0], 0)] rfl
    1 rfl (by decide) 0 rfl 0 0
    (by norm_num [loaderPixelBatches, batchPixels, compute_mean_var])

/-- C7: after `Pipeline.min_max_scale` runs on a partition whose
pre-stage pixel minimum is `pmin` and maximum is `pmax` with
`pmin < pmax`, the transform applied to every pixel of the partition is
exactly the affine map `x ↦ (x - (pmax+pmin)/2) / ((pmax-pmin)/2)`,
which maps the original minimum to `-1` and the original maximum to
`+1`. -/
theorem min_max_scale_affine (sub : Part) (s : PState)
    (dl : List (List Item)) (hdl : s.data_loaders.get sub = some dl)
    (ds : List Item) (hds : s.subsets.get sub = some ds)
    (bsz : ℕ) (hbsz : s.batch_size = some bsz) (hbpos : bsz ≠ 0)
    (nw : ℕ) (hnw : s.num_workers = some nw)
    (pmin pmax : ℝ)
    (hmm : compute_min_max (loaderPixelBatches dl)
      = .ok ((pmin : WithTop ℝ), (pmax : WithBot ℝ)))
    (hlt : pmin < pmax) :
    ∃ s', min_max_scale sub s = .ok s'
      ∧ s'.subsets.get sub = some (ds.map (fun it =>
          (it.1.map (fun x => (x - (pmax + pmin) / 2) / ((pmax - pmin) / 2)), it.2)))
      ∧ (pmin - (pmax + pmin) / 2) / ((pmax - pmin) / 2) = -1
      ∧ (pmax - (pmax + pmin) / 2) / ((pmax - pmin) / 2) = 1 := by
  obtain ⟨s', hs', hsub⟩ :=
    min_max_scale_ok sub s dl hdl ds hds bsz hbsz hbpos nw hnw _ _ hmm
  have hscale : (pmax - pmin) / 2 ≠ 0 :=
    div_ne_zero (sub_ne_zero.mpr (ne_of_gt hlt)) two_ne_zero
  refine ⟨s', hs', hsub, ?_, ?_⟩
  · rw [div_eq_iff hscale]; ring
  · rw [div_eq_iff hscale]; ring

/-- State for the min-max-scale witness: two single-pixel items with
pixel values 0 and 1 in the train partition, one batch. -/
def stateW7 : PState :=
  { PState.init with
    batch_size := some 2
    num_workers := some 0
    subsets := { train := some [([0], 0), ([1], 1)], valid := none, test := none }
    data_loaders := { train := some [[([0], 0), ([1], 1)]], valid := none, test := none } }

/-- C7 witness: on pixels `{0, 1}` the stage applies
`x ↦ (x - 1/2) / (1/2)`, sending 0 to -1 and 1 to +1. -/
theorem min_max_scale_affine_witness :
    ∃ s', min_max_scale .train stateW7 = .ok s'
      ∧ s'.subsets.get .train = some ([([0], 0), ([1], 1)].map (fun it =>
          (it.1.map (fun x => (x - ((1 : ℝ) + 0) / 2) / (((1 : ℝ) - 0) / 2)), it.2)))
      ∧ ((0 : ℝ) - ((1 : ℝ) + 0) / 2) / (((1 : ℝ) - 0) / 2) = -1
      ∧ ((1 : ℝ) - ((1 : ℝ) + 0) / 2) / (((1 : ℝ) - 0) / 2) = 1 := by
  have hlo : loaderPixelBatches [[([0], 0), ([1], 1)]] = [[(0 : ℝ), 1]] := rfl
  have hb1 : ([1].foldl min (0 : ℝ)) = 0 := by norm_num [List.foldl, min_def]
  have hb2 : ([1].foldl max (0 : ℝ)) = 1 := by norm_num [List.foldl, max_def]
  have hmm : compute_min_max (loaderPixelBatches [[([0], 0), ([1], 1)]])
      = .ok (((0 : ℝ) : WithTop ℝ), ((1 : ℝ) : WithBot ℝ)) := by
    rw [hlo, compute_min_max]
    simp only [minMaxGo, batchMin, batchMax, hb1, hb2]
    rw [min_eq_right le_top, max_eq_right bot_le]
  exact min_max_scale_affine .train stateW7 [[([0], 0), ([1], 1)]] rfl
    [([0], 0), ([1], 1)] rfl 2 rfl (by decide) 0 rfl 0 1 hmm (by norm_num)

/-- C10: when a partition's loader is non-empty but every pixel value in
it equals `c` (so `pixel_min = pixel_max = c`), `Pipeline.min_max_scale`
computes `scale = (c - c) / 2 = 0` and still constructs and applies the
affine normalizer with that zero divisor: the division-by-zero case is
not guarded, and the stage completes normally instead of failing. -/
theorem min_max_scale_zero_scale (sub : Part) (s : PState)
    (dl : List (List Item)) (hdl : s.data_loaders.get sub = some dl)
    (ds : List Item) (hds : s.subsets.get sub = some ds)
    (bsz : ℕ) (hbsz : s.batch_size = some bsz) (hbpos : bsz ≠ 0)
    (nw : ℕ) (hnw : s.num_workers = some nw)
    (c : ℝ)
    (hne : (loaderPixelBatches dl).flatten ≠ [])
    (hbne : ∀ b ∈ loaderPixelBatches dl, b ≠ [])
    (hall : ∀ x ∈ (loaderPixelBatches dl).flatten, x = c) :
    compute_min_max (loaderPixelBatches dl) = .ok ((c : WithTop ℝ), (c : WithBot ℝ))
    ∧ minMaxParams (c : WithTop ℝ) (c : WithBot ℝ) = (c, 0)
    ∧ ∃ s', min_max_scale sub s = .ok s' := by
  have hmin : (loaderPixelBatches dl).flatten.minimum = (c : WithTop ℝ) := by
    rw [List.minimum_eq_coe_iff]
    obtain ⟨x, hx⟩ := List.exists_mem_of_ne_nil _ hne
    refine ⟨?_, fun a ha => le_of_eq (hall a ha).symm⟩
    rw [← hall x hx]; exact hx
  have hmax : (loaderPixelBatches dl).flatten.maximum = (c : WithBot ℝ) := by
    rw [List.maximum_eq_coe_iff]
    obtain ⟨x, hx⟩ := List.exists_mem_of_ne_nil _ hne
    refine ⟨?_, fun a ha => le_of_eq (hall a ha)⟩
    rw [← hall x hx]; exact hx
  have hmm : compute_min_max (loaderPixelBatches dl)
      = .ok ((c : WithTop ℝ), (c : WithBot ℝ)) := by
    rw [compute_min_max, minMaxGo_spec _ ⊤ ⊥ hbne, hmin, hmax,
      min_eq_right (le_top : (c : WithTop ℝ) ≤ ⊤),
      max_eq_right (bot_le : ⊥ ≤ (c : WithBot ℝ))]
  have hparams : minMaxParams (c : WithTop ℝ) (c : WithBot ℝ) = (c, 0) := by
    show ((c + c) / 2, (c - c) / 2) = (c, 0)
    simp only [Prod.mk.injEq]
    constructor <;> ring
  obtain ⟨s', hs', _⟩ :=
    min_max_scale_ok sub s dl hdl ds hds bsz hbsz hbpos nw hnw _ _ hmm
  exact ⟨hmm, hparams, s', hs'⟩

/-- State for the zero-scale witness: one item whose single pixel is 5,
so `pixel_min = pixel_max = 5`. -/
def stateW10 : PState :=
  { PState.init with
    batch_size := some 1
    num_workers := some 0
    subsets := { train := some [([5], 0)], valid := none, test := none }
    data_loaders := { train := some [[([5], 0)]], valid := none, test := none } }

/-- C10 witness: the constant-5 partition gives min = max = 5, scale 0,
and the stage still completes. -/
theorem min_max_scale_zero_scale_witness :
    compute_min_max (loaderPixelBatches [[([5], 0)]])
      = .ok (((5 : ℝ) : WithTop ℝ), ((5 : ℝ) : WithBot ℝ))
    ∧ minMaxParams ((5 : ℝ) : WithTop ℝ) ((5 : ℝ) : WithBot ℝ) = (5, 0)
    ∧ ∃ s', min_max_scale .train stateW10 = .ok s' :=
  min_max_scale_zero_scale .train stateW10 [[([5], 0)]] rfl [([5], 0)] rfl
    1 rfl (by decide) 0 rfl 5
    (by simp [loaderPixelBatches, batchPixels])
    (by simp [loaderPixelBatches, batchPixels])
    (by simp [loaderPixelBatches, batchPixels])

end HustBearing
